import Mathlib

/-!
Shallow embedding of `src/datastore/memcache_file.go` (package `datastore`,
the memory-cached datastore with asynchronous file backing), together with
spec-modelled contracts for its collaborators that are not under `src/`
(the memcache core `MemcacheDatastore`, the file-based backend helpers and
the LRU-cache constructors), and proofs of the claims about it.

Modelling conventions:
* `urn.AsDatastoreDirectory(config_obj)` keys are represented by the
  component list itself (rendered directory strings are in bijection with
  component lists for a fixed config).
* Go errors are `Option DSErr` (`none` = nil) or `Except DSErr`.
* The two bounded LRU caches are represented as association lists; the
  eviction machinery is irrelevant to the claims proved here.
* Goroutine interleavings are modelled sequentially: a `workerStep`
  processes the head of the FIFO mutation channel exactly as the worker
  loop body does; `wg.Wait()` in write-through mode (negative mutation
  buffer) is modelled by draining the FIFO through the just-enqueued
  mutation, which is what the wait observes on return.
-/

namespace MemcacheFile

/-- A datastore key: the component list of a path, standing for the string
`urn.AsDatastoreDirectory(config_obj)`. -/
abbrev Key := List String

/-- Serialized payload bytes. -/
abbrev Bytes := List Nat

/-- The payload-encoding tag of a path: `api.PATH_TYPE_DATASTORE_JSON`
versus the binary protobuf default branch. -/
inductive PathType
  | json
  | protobin
deriving DecidableEq, Repr

/-- `api.DSPathSpec`: hierarchical components plus the encoding tag. -/
structure DSPathSpec where
  components : Key
  ptype : PathType
deriving DecidableEq, Repr

/-- `urn.Dir()`: the path with its last component removed. -/
def DSPathSpec.dir (p : DSPathSpec) : DSPathSpec :=
  { p with components := p.components.dropLast }

/-- Go-side error values surfaced by the store: `os.IsNotExist`-style
not-found, encoder failures, other I/O failures. -/
inductive DSErr
  | notFound
  | encodeErr (msg : String)
  | ioErr (msg : String)
deriving DecidableEq, Repr

/-- Association-list lookup (first binding wins). -/
def lookupA {α : Type} : List (Key × α) → Key → Option α
  | [], _ => none
  | (k, v) :: rest, k2 => if k = k2 then some v else lookupA rest k2

/-- Association-list removal of every binding of a key. -/
def removeA {α : Type} : List (Key × α) → Key → List (Key × α)
  | [], _ => []
  | (k, v) :: rest, k2 =>
      if k = k2 then removeA rest k2 else (k, v) :: removeA rest k2

/-- Association-list update: bind a key to a value. -/
def setA {α : Type} (l : List (Key × α)) (k : Key) (v : α) : List (Key × α) :=
  (k, v) :: removeA l k

/-- A `proto.Message` as the store sees it: its two possible marshalled
forms (`protojson.Marshal` and `proto.Marshal`), each of which may fail. -/
structure ProtoMessage where
  jsonEnc : Except String Bytes
  binEnc : Except String Bytes

/-- The encoding performed at the top of `SetSubjectWithCompletion` /
`SetSubject` (lines 262-277 and 312-327): `protojson.Marshal` for
`PATH_TYPE_DATASTORE_JSON` paths, `proto.Marshal` otherwise. -/
def encodeMessage (urn : DSPathSpec) (m : ProtoMessage) : Except String Bytes :=
  if urn.ptype = PathType.json then m.jsonEnc else m.binEnc

/-- `DirectoryMetadata`: the cached child set of a directory plus the
`full` flag ("this listing is known complete"). -/
structure DirectoryMetadata where
  members : List String
  full : Bool
deriving DecidableEq, Repr

/-- `md.IsFull()`. -/
def DirectoryMetadata.isFull (md : DirectoryMetadata) : Bool := md.full

/-- The data cache: path key to payload bytes. -/
abbrev DataCache := List (Key × Bytes)

/-- The directory cache: directory key to `DirectoryMetadata`. -/
abbrev DirCache := List (Key × DirectoryMetadata)

/-- The loop body of `invalidateDirCache` (lines 129-133) and of the walk
in `get_file_dir_metadata` (lines 501-506): if the key holds a directory
cache entry whose `IsFull()` is false, remove it. -/
def dropNonFull (dc : DirCache) (k : Key) : DirCache :=
  match lookupA dc k with
  | some md => if !md.isFull then removeA dc k else dc
  | none => dc

/-- `MemcacheFileDataStore.invalidateDirCache` (lines 124-136): starting at
`urn` and walking `urn = urn.Dir()` toward the root, drop every directory
cache entry that is present but not full. -/
def invalidateDirCache (dc : DirCache) (urn : Key) : DirCache :=
  if h : urn = [] then dc
  else invalidateDirCache (dropNonFull dc urn) urn.dropLast
termination_by urn.length
decreasing_by
  have hl : 0 < urn.length := List.length_pos.mpr h
  simp [List.length_dropLast]
  omega

/-- Whether the directory cache holds a non-full entry at a key (the
condition `pres && !md.IsFull()` of the invalidation walks). -/
def nonFullAt (dc : DirCache) (k : Key) : Bool :=
  match lookupA dc k with
  | some md => !md.isFull
  | none => false

/-- `get_file_dir_metadata` (lines 471-511): the directory-metadata
resolver of the file-backed store. If the queried key holds a cached
entry it is returned as-is with the cache untouched; otherwise the walk
from `urn.Dir()` toward the root (lines 499-508, the same loop as
`invalidateDirCache`) removes every non-full entry and the resolver
returns no metadata (`errorNoDirectoryMetadata`, modelled as `none`). -/
def get_file_dir_metadata (dir_cache : DirCache) (urn : Key) :
    Option DirectoryMetadata × DirCache :=
  match lookupA dir_cache urn with
  | some md => (some md, dir_cache)
  | none => (none, invalidateDirCache dir_cache urn.dropLast)

/-- Adding one child name to a `DirectoryMetadata` child set. -/
def addChildMember (md : DirectoryMetadata) (name : String) : DirectoryMetadata :=
  if name ∈ md.members then md else { md with members := md.members ++ [name] }

/-- The child name a path contributes to its parent directory listing. -/
def childName (urn : DSPathSpec) : String :=
  (urn.components.getLast?).getD ""

/-- Modelled from the spec: the filesystem backend contract of §6
(`writeContent`, `readContent`, `deleteSubject`); the implementation
(`writeContentToFile`, `readContentFromFile`, `file_based_imp`) is not
under `src/`. Files are a key-to-bytes map; `failing` is the set of paths
whose writes fail with an I/O error (§7 "IoError"). -/
structure FileSystem where
  files : List (Key × Bytes)
  failing : List Key
deriving DecidableEq, Repr

/-- Modelled from the spec: `writeContent(path, bytes)` — create/replace,
or an I/O error for a failing path, leaving the filesystem unchanged. -/
def writeContentToFile (fs : FileSystem) (urn : DSPathSpec) (data : Bytes) :
    Option DSErr × FileSystem :=
  if urn.components ∈ fs.failing then (some (DSErr.ioErr "write"), fs)
  else (none, { fs with files := setA fs.files urn.components data })

/-- Modelled from the spec: `readContent(path, mustExist)` — the error
distinguishes "not found" from other failures; a non-existent path with
`mustExist` is a not-found error. -/
def readContentFromFile (fs : FileSystem) (urn : DSPathSpec) (mustExist : Bool) :
    Except DSErr Bytes :=
  match lookupA fs.files urn.components with
  | some b => Except.ok b
  | none => if mustExist then Except.error DSErr.notFound else Except.ok []

/-- Modelled from the spec: `file_based_imp.DeleteSubject` — idempotent
delete on the filesystem backend (§6). -/
def fileBasedDeleteSubject (fs : FileSystem) (urn : DSPathSpec) : FileSystem :=
  { fs with files := removeA fs.files urn.components }

/-- Modelled from the spec: `MemcacheDatastore.GetSubject` (§4.4, not under
`src/`) — decode the cached payload; a path absent from the data cache
fails with not-found. The decoded message is represented by its payload
bytes (the store only round-trips payloads). -/
def cacheGetSubject (data : DataCache) (urn : DSPathSpec) : Except DSErr Bytes :=
  match lookupA data urn.components with
  | some b => Except.ok b
  | none => Except.error DSErr.notFound

/-- Modelled from the spec: `MemcacheDatastore.GetBuffer` (§4.4, not under
`src/`) — the raw cached payload bytes, or not-found. -/
def cacheGetBuffer (data : DataCache) (urn : DSPathSpec) : Except DSErr Bytes :=
  match lookupA data urn.components with
  | some b => Except.ok b
  | none => Except.error DSErr.notFound

/-- Modelled from the spec: `MemcacheDatastore.SetData` (§4.4-§4.5, not
under `src/`) — store the pre-encoded payload in the data cache and
maintain the parent directory metadata through the injected resolver
(`get_file_dir_metadata` for this store): if the resolver returns a
metadata object the new child is added in place, otherwise the update is
skipped. -/
def cacheSetData (data : DataCache) (dc : DirCache) (urn : DSPathSpec)
    (b : Bytes) : Option DSErr × DataCache × DirCache :=
  let data2 := setA data urn.components b
  let parent := urn.components.dropLast
  let rmd := get_file_dir_metadata dc parent
  let dc2 :=
    match rmd.1 with
    | some md => setA rmd.2 parent (addChildMember md (childName urn))
    | none => rmd.2
  (none, data2, dc2)

/-- Modelled from the spec: `MemcacheDatastore.SetSubject` (§4.4, not under
`src/`) — encode the message per the path's tag (returning encoding errors
verbatim) and store as `SetData`. -/
def cacheSetSubject (data : DataCache) (dc : DirCache) (urn : DSPathSpec)
    (message : ProtoMessage) : Option DSErr × DataCache × DirCache :=
  match encodeMessage urn message with
  | Except.error e => (some (DSErr.encodeErr e), data, dc)
  | Except.ok b => cacheSetData data dc urn b

/-- Modelled from the spec: `MemcacheDatastore.DeleteSubject` (§4.4, not
under `src/`) — remove from the data cache and remove the child from the
parent directory metadata when that metadata is present. -/
def cacheDeleteSubject (data : DataCache) (dc : DirCache) (urn : DSPathSpec) :
    Option DSErr × DataCache × DirCache :=
  let data2 := removeA data urn.components
  let parent := urn.components.dropLast
  let dc2 :=
    match lookupA dc parent with
    | some md =>
        setA dc parent { md with members := md.members.filter (fun n => n ≠ childName urn) }
    | none => dc
  (none, data2, dc2)

/-- The two mutation opcodes (`MUTATION_OP_SET_SUBJECT`,
`MUTATION_OP_DEL_SUBJECT`, lines 95-98). -/
inductive MutationOp
  | setSubjectOp
  | delSubjectOp
deriving DecidableEq, Repr

/-- A `Mutation` (lines 100-109). The `*sync.WaitGroup` handle is implicit
(signalling it is counted in the store state); the optional completion
callback is modelled by whether one is attached. -/
structure Mutation where
  op : MutationOp
  urn : DSPathSpec
  data : Bytes
  hasCompletion : Bool
deriving DecidableEq, Repr

/-- `MemcacheFileDataStore` state: the memcache core's two caches, the
FIFO writer channel contents, whether the cancellation context has fired,
the backing filesystem, and observation counters — the data hit/miss
metrics, the number of post-persist completion callbacks that have run,
and the number of per-mutation wait handles released (`wg.Done()`). -/
structure MemcacheFileDataStore where
  data_cache : DataCache
  dir_cache : DirCache
  writer : List Mutation
  ctxDone : Bool
  fs : FileSystem
  dataHits : Nat
  dataMisses : Nat
  completionsRun : Nat
  wgDones : Nat
deriving DecidableEq, Repr

/-- One writer worker receiving and processing the next mutation from the
channel (the loop body, lines 191-214): for a SET, write the payload to
the backing file (the returned error is discarded by the worker),
invalidate the directory cache from the mutation's path, run the
completion callback if attached; for a DELETE, delete on the file-based
store and invalidate from the path's parent. In both cases `wg.Done()` is
called and the mutation is not requeued. -/
def workerStep (s : MemcacheFileDataStore) : MemcacheFileDataStore :=
  match s.writer with
  | [] => s
  | mutation :: rest =>
    match mutation.op with
    | MutationOp.setSubjectOp =>
        { s with
          writer := rest
          fs := (writeContentToFile s.fs mutation.urn mutation.data).2
          dir_cache := invalidateDirCache s.dir_cache mutation.urn.components
          completionsRun :=
            if mutation.hasCompletion then s.completionsRun + 1 else s.completionsRun
          wgDones := s.wgDones + 1 }
    | MutationOp.delSubjectOp =>
        { s with
          writer := rest
          fs := fileBasedDeleteSubject s.fs mutation.urn
          dir_cache := invalidateDirCache s.dir_cache mutation.urn.dir.components
          wgDones := s.wgDones + 1 }

/-- Drain the writer channel: workers process the FIFO until it is empty.
`wg.Wait()` on a just-enqueued (hence last) mutation returns exactly when
the drain has passed that mutation. -/
def processQueue (s : MemcacheFileDataStore) : MemcacheFileDataStore :=
  match hw : s.writer with
  | [] => s
  | m :: rest => processQueue (workerStep s)
termination_by s.writer.length
decreasing_by
  have hstep : (workerStep s).writer = rest := by
    unfold workerStep
    rw [hw]
    cases hop : m.op <;> simp [hop]
  rw [hstep, hw]
  simp [List.length_cons]

/-- The `Datastore` section of the server configuration (the fields the
store reads). -/
structure DatastoreConfig where
  MemcacheExpirationSec : Nat
  MemcacheWriteMutationBuffer : Int
  MemcacheWriteMutationWriters : Int
  MemcacheDatastoreMaxSize : Int
  MemcacheDatastoreMaxItemSize : Int
  MemcacheDatastoreMaxDirSize : Int
deriving DecidableEq, Repr

/-- `config_proto.Config`: the `Datastore` section pointer may be nil. -/
structure Config where
  Datastore : Option DatastoreConfig
deriving DecidableEq, Repr

/-- `MemcacheFileDataStore.SetSubjectWithCompletion` (lines 254-303):
encode (returning encoder errors immediately), add to the memcache core,
then select on cancellation versus the channel send; on cancellation
return nil having enqueued nothing; after a successful send, when
`MemcacheWriteMutationBuffer < 0` wait for the mutation's wait handle
(modelled by draining the FIFO through the enqueued mutation). -/
def SetSubjectWithCompletion (cfg : DatastoreConfig) (s : MemcacheFileDataStore)
    (urn : DSPathSpec) (message : ProtoMessage) (hasCompletion : Bool) :
    Option DSErr × MemcacheFileDataStore :=
  match encodeMessage urn message with
  | Except.error e => (some (DSErr.encodeErr e), s)
  | Except.ok serialized_content =>
    let r := cacheSetSubject s.data_cache s.dir_cache urn message
    let s1 := { s with data_cache := r.2.1, dir_cache := r.2.2 }
    if s1.ctxDone then (none, s1)
    else
      let s2 := { s1 with writer :=
        s1.writer ++ [⟨MutationOp.setSubjectOp, urn, serialized_content, hasCompletion⟩] }
      if cfg.MemcacheWriteMutationBuffer < 0 then (r.1, processQueue s2)
      else (r.1, s2)

/-- `MemcacheFileDataStore.SetSubject` (lines 305-341): encode (returning
encoder errors immediately), add the serialized bytes to the cache via
`SetData`, then write the backing file synchronously, propagating its
error; no mutation is enqueued. -/
def SetSubject (_cfg : DatastoreConfig) (s : MemcacheFileDataStore)
    (urn : DSPathSpec) (message : ProtoMessage) :
    Option DSErr × MemcacheFileDataStore :=
  match encodeMessage urn message with
  | Except.error e => (some (DSErr.encodeErr e), s)
  | Except.ok serialized_content =>
    let r := cacheSetData s.data_cache s.dir_cache urn serialized_content
    let s1 := { s with data_cache := r.2.1, dir_cache := r.2.2 }
    match r.1 with
    | some e => (some e, s1)
    | none =>
      let w := writeContentToFile s1.fs urn serialized_content
      (w.1, { s1 with fs := w.2 })

/-- `MemcacheFileDataStore.GetSubject` (lines 221-252): consult the
memcache core; on a not-found miss read the backing file (surfacing its
error, in particular not-found for an absent path), count the miss,
hydrate the cache via `SetData` and re-read from the cache; any other
outcome counts as a hit. -/
def GetSubject (s : MemcacheFileDataStore) (urn : DSPathSpec) :
    Except DSErr Bytes × MemcacheFileDataStore :=
  match cacheGetSubject s.data_cache urn with
  | Except.error e =>
    if e = DSErr.notFound then
      match readContentFromFile s.fs urn true with
      | Except.error e2 => (Except.error e2, s)
      | Except.ok serialized_content =>
        let s1 := { s with dataMisses := s.dataMisses + 1 }
        let r := cacheSetData s1.data_cache s1.dir_cache urn serialized_content
        let s2 := { s1 with data_cache := r.2.1, dir_cache := r.2.2 }
        (cacheGetSubject s2.data_cache urn, s2)
    else (Except.error e, { s with dataHits := s.dataHits + 1 })
  | Except.ok b => (Except.ok b, { s with dataHits := s.dataHits + 1 })

/-- `MemcacheFileDataStore.GetBuffer` (lines 417-437): as `GetSubject` but
for raw bytes; on any cache miss fall back to the backing file, count the
miss and hydrate the cache via `SetData`, returning the file's bytes. -/
def GetBuffer (s : MemcacheFileDataStore) (urn : DSPathSpec) :
    Except DSErr Bytes × MemcacheFileDataStore :=
  match cacheGetBuffer s.data_cache urn with
  | Except.ok b => (Except.ok b, { s with dataHits := s.dataHits + 1 })
  | Except.error _ =>
    match readContentFromFile s.fs urn true with
    | Except.error e2 => (Except.error e2, s)
    | Except.ok bulk_data =>
      let s1 := { s with dataMisses := s.dataMisses + 1 }
      let r := cacheSetData s1.data_cache s1.dir_cache urn bulk_data
      (Except.ok bulk_data, { s1 with data_cache := r.2.1, dir_cache := r.2.2 })

/-- `MemcacheFileDataStore.SetBuffer` (lines 440-468): add the raw bytes to
the cache via `SetData`, then the same select/enqueue/wait structure as
`SetSubjectWithCompletion`. -/
def SetBuffer (cfg : DatastoreConfig) (s : MemcacheFileDataStore)
    (urn : DSPathSpec) (data : Bytes) (hasCompletion : Bool) :
    Option DSErr × MemcacheFileDataStore :=
  let r := cacheSetData s.data_cache s.dir_cache urn data
  let s1 := { s with data_cache := r.2.1, dir_cache := r.2.2 }
  match r.1 with
  | some e => (some e, s1)
  | none =>
    if s1.ctxDone then (none, s1)
    else
      let s2 := { s1 with writer :=
        s1.writer ++ [⟨MutationOp.setSubjectOp, urn, data, hasCompletion⟩] }
      if cfg.MemcacheWriteMutationBuffer < 0 then (none, processQueue s2)
      else (none, s2)

/-- The observable outcome of a call that may fail to return: either it
returns an error value and a post-state, or it blocks forever. -/
inductive CallOutcome
  | returns (err : Option DSErr) (s : MemcacheFileDataStore)
  | blocked (s : MemcacheFileDataStore)

/-- Whether a call outcome is the blocking one. -/
def CallOutcome.isBlocked : CallOutcome → Bool
  | CallOutcome.blocked _ => true
  | CallOutcome.returns _ _ => false

/-- The post-state carried by a call outcome. -/
def CallOutcome.state : CallOutcome → MemcacheFileDataStore
  | CallOutcome.blocked s => s
  | CallOutcome.returns _ s => s

/-- `MemcacheFileDataStore.DeleteSubject` (lines 343-369): remove from the
memcache core, then select on cancellation versus the channel send. The
cancellation arm is `break` (line 356), which leaves only the select, so
control falls through to the `MemcacheWriteMutationBuffer < 0` check; in
that case `wg.Wait()` is reached with the mutation never enqueued and no
worker left to call `wg.Done()`, so the call never returns (modelled as
`blocked`). After a successful send, a negative buffer waits for the
mutation to be processed. -/
def DeleteSubject (cfg : DatastoreConfig) (s : MemcacheFileDataStore)
    (urn : DSPathSpec) : CallOutcome :=
  let r := cacheDeleteSubject s.data_cache s.dir_cache urn
  let s1 := { s with data_cache := r.2.1, dir_cache := r.2.2 }
  if s1.ctxDone then
    if cfg.MemcacheWriteMutationBuffer < 0 then CallOutcome.blocked s1
    else CallOutcome.returns r.1 s1
  else
    let s2 := { s1 with writer := s1.writer ++ [⟨MutationOp.delSubjectOp, urn, [], false⟩] }
    if cfg.MemcacheWriteMutationBuffer < 0 then CallOutcome.returns r.1 (processQueue s2)
    else CallOutcome.returns r.1 s2

/-- The capacities the constructor hands to the two caches. -/
structure StoreCaps where
  dataCacheMaxEntries : Int
  dataCacheMaxItemBytes : Int
  dirCacheMaxEntries : Int
deriving DecidableEq, Repr

/-- Modelled from the spec: `NewDataLRUCache` (not under `src/`) builds
the data cache with the given maximum entry count and per-item byte cap
(§4.1-§4.2, §6). -/
def NewDataLRUCache (max_size max_item_size : Int) : Int × Int :=
  (max_size, max_item_size)

/-- Modelled from the spec: `NewDirectoryLRUCache` (not under `src/`).
Per §6 the directory cache's maximum entry count is the configured
"directory cache max entries" option, i.e. the argument derived from
`MemcacheDatastoreMaxDirSize` (default 1000). -/
def NewDirectoryLRUCache (_max_size max_dir_size : Int) : Int :=
  max_dir_size

/-- `NewMemcacheFileDataStore` (lines 513-542): compute the three
capacities, defaulting unset (non-positive) ones to 10000 entries,
64*1024 payload bytes and 1000 directory entries, and build the caches.
The Go code dereferences `config_obj.Datastore` without a nil check for
the item-size fields (lines 522, 527); a nil `Datastore` is modelled as
`none` (the call would panic). -/
def NewMemcacheFileDataStore (config_obj : Config) : Option StoreCaps :=
  let data_max_size : Int :=
    match config_obj.Datastore with
    | some d => if d.MemcacheDatastoreMaxSize > 0 then d.MemcacheDatastoreMaxSize else 10000
    | none => 10000
  match config_obj.Datastore with
  | none => none
  | some d =>
    let data_max_item_size : Int :=
      if d.MemcacheDatastoreMaxItemSize > 0 then d.MemcacheDatastoreMaxItemSize
      else 64 * 1024
    let dir_max_item_size : Int :=
      if d.MemcacheDatastoreMaxDirSize > 0 then d.MemcacheDatastoreMaxDirSize
      else 1000
    let dataCaps := NewDataLRUCache data_max_size data_max_item_size
    let dirCap := NewDirectoryLRUCache data_max_size dir_max_item_size
    some { dataCacheMaxEntries := dataCaps.1
           dataCacheMaxItemBytes := dataCaps.2
           dirCacheMaxEntries := dirCap }

/-! Concrete instances used by witnesses and counterexamples. -/

/-- A configuration with every write-behind option at its default. -/
def defaultCfg : DatastoreConfig := ⟨600, 1000, 100, 0, 0, 0⟩

/-- A configuration with the negative (write-through) buffer sentinel. -/
def negBufCfg : DatastoreConfig := ⟨600, -1, 100, 0, 0, 0⟩

/-- A sample JSON-tagged path. -/
def uAB : DSPathSpec := ⟨["a", "b"], PathType.json⟩

/-- A message whose encodings both succeed. -/
def msgOk : ProtoMessage := ⟨Except.ok [1, 2], Except.ok [3]⟩

/-- A message whose encodings both fail. -/
def msgBad : ProtoMessage := ⟨Except.error "marshal error", Except.error "marshal error"⟩

/-- An empty filesystem with no failing paths. -/
def emptyFS : FileSystem := ⟨[], []⟩

/-- A freshly started empty store. -/
def emptyStore : MemcacheFileDataStore := ⟨[], [], [], false, emptyFS, 0, 0, 0, 0⟩

/-- A store whose cancellation context has fired. -/
def cancelledStore : MemcacheFileDataStore := { emptyStore with ctxDone := true }

/-- A store whose filesystem holds bytes for `uAB` but whose caches are
cold. -/
def fsStore : MemcacheFileDataStore := { emptyStore with fs := ⟨[(["a", "b"], [7])], []⟩ }

/-- A store with a pending SET mutation whose filesystem write fails. -/
def failWriteStore : MemcacheFileDataStore :=
  { emptyStore with
    writer := [⟨MutationOp.setSubjectOp, uAB, [9], true⟩]
    fs := ⟨[], [["a", "b"]]⟩ }

/-- A store with a pending SET mutation and a non-full directory entry at
an ancestor of the mutation's path. -/
def pendingSetStore : MemcacheFileDataStore :=
  { emptyStore with
    writer := [⟨MutationOp.setSubjectOp, uAB, [9], false⟩]
    dir_cache := [(["a"], ⟨["x"], false⟩)] }

/-- A directory cache holding only a non-full entry at `["a"]`. -/
def dcNonFull : DirCache := [(["a"], ⟨[], false⟩)]

/-! Helper lemmas. -/

theorem lookupA_setA_self {α : Type} (l : List (Key × α)) (k : Key) (v : α) :
    lookupA (setA l k v) k = some v := by
  simp [setA, lookupA]

theorem lookupA_removeA_self {α : Type} (l : List (Key × α)) (k : Key) :
    lookupA (removeA l k) k = none := by
  induction l with
  | nil => simp [removeA, lookupA]
  | cons kv rest ih =>
      obtain ⟨k1, v1⟩ := kv
      by_cases hk : k1 = k <;> simp [removeA, lookupA, hk, ih]

theorem lookupA_removeA_ne {α : Type} (l : List (Key × α)) (k k2 : Key)
    (h : k ≠ k2) : lookupA (removeA l k) k2 = lookupA l k2 := by
  induction l with
  | nil => simp [removeA]
  | cons kv rest ih =>
      obtain ⟨k1, v1⟩ := kv
      by_cases hk : k1 = k
      · subst hk
        simp [removeA, lookupA, h, ih]
      · by_cases hk2 : k1 = k2 <;> simp [removeA, lookupA, hk, hk2, ih, Ne.symm h]

theorem lookupA_setA_ne {α : Type} (l : List (Key × α)) (k k2 : Key) (v : α)
    (h : k ≠ k2) : lookupA (setA l k v) k2 = lookupA l k2 := by
  simp [setA, lookupA, h, lookupA_removeA_ne l k k2 h]

theorem lookupA_dropNonFull_self (dc : DirCache) (k : Key) :
    lookupA (dropNonFull dc k) k =
      if nonFullAt dc k then none else lookupA dc k := by
  unfold dropNonFull nonFullAt
  cases hl : lookupA dc k with
  | none => simp [hl]
  | some md => by_cases hf : md.isFull <;> simp [hf, lookupA_removeA_self, hl]

theorem lookupA_dropNonFull_ne (dc : DirCache) (k k2 : Key) (h : k ≠ k2) :
    lookupA (dropNonFull dc k) k2 = lookupA dc k2 := by
  unfold dropNonFull
  cases hl : lookupA dc k with
  | none => rfl
  | some md => by_cases hf : md.isFull <;> simp [hf, lookupA_removeA_ne dc k k2 h]

theorem nonFullAt_dropNonFull_ne (dc : DirCache) (k k2 : Key) (h : k ≠ k2) :
    nonFullAt (dropNonFull dc k) k2 = nonFullAt dc k2 := by
  unfold nonFullAt
  rw [lookupA_dropNonFull_ne dc k k2 h]

theorem prefix_dropLast_iff (p k : Key) (hp : p ≠ []) :
    k <+: p.dropLast ↔ (k <+: p ∧ k ≠ p) := by
  constructor
  · intro h
    have h1 : k <+: p := h.trans (List.dropLast_prefix p)
    refine ⟨h1, ?_⟩
    intro hk
    subst hk
    have h2 := h.length_le
    rw [List.length_dropLast] at h2
    have h3 : 0 < k.length := List.length_pos.mpr hp
    omega
  · rintro ⟨h1, h2⟩
    have hlt : k.length < p.length := by
      rcases Nat.lt_or_ge k.length p.length with h | h
      · exact h
      · exact absurd (h1.eq_of_length (Nat.le_antisymm h1.length_le h)) h2
    have hk : k = p.take k.length := List.prefix_iff_eq_take.mp h1
    have hmin : min k.length (p.length - 1) = k.length := by omega
    have hdk : (p.dropLast).take k.length = k := by
      rw [List.dropLast_eq_take, List.take_take, hmin, ← hk]
    rw [← hdk]
    exact List.take_prefix _ _

theorem invalidateDirCache_nil (dc : DirCache) : invalidateDirCache dc [] = dc := by
  unfold invalidateDirCache
  simp

theorem invalidateDirCache_ne (dc : DirCache) (p : Key) (hp : p ≠ []) :
    invalidateDirCache dc p = invalidateDirCache (dropNonFull dc p) p.dropLast := by
  conv_lhs => unfold invalidateDirCache
  simp [hp]

/-- The effect of the bottom-up invalidation walk on every key: a key is
cleared exactly when it is a nonempty prefix of the walked path and held a
non-full entry; every other binding, in particular every full entry, is
untouched. -/
theorem invalidateDirCache_lookup (dc : DirCache) (p : Key) :
    ∀ k, lookupA (invalidateDirCache dc p) k =
      if k ≠ [] ∧ k <+: p ∧ nonFullAt dc k = true then none
      else lookupA dc k := by
  induction dc, p using invalidateDirCache.induct with
  | case1 dc =>
      intro k
      rw [invalidateDirCache_nil]
      by_cases hk : k = [] <;> simp [hk]
  | case2 dc p hp ih =>
      intro k
      rw [invalidateDirCache_ne dc p hp, ih k]
      by_cases hkp : k = p
      · subst hkp
        have hnd : ¬ (k ≠ [] ∧ k <+: k.dropLast ∧ nonFullAt (dropNonFull dc k) k = true) := by
          rintro ⟨h1, h2, _⟩
          exact ((prefix_dropLast_iff k k h1).mp h2).2 rfl
        rw [if_neg hnd, lookupA_dropNonFull_self]
        by_cases hnf : nonFullAt dc k = true
        · simp [hnf, hp]
        · simp [hnf, hp]
      · rw [nonFullAt_dropNonFull_ne dc p k (fun h => hkp h.symm),
            lookupA_dropNonFull_ne dc p k (fun h => hkp h.symm)]
        have hiff : k <+: p.dropLast ↔ k <+: p := by
          rw [prefix_dropLast_iff p k hp]
          constructor
          · rintro ⟨h1, _⟩
            exact h1
          · intro h1
            exact ⟨h1, hkp⟩
        by_cases h1 : k ≠ [] <;> by_cases h2 : k <+: p <;>
          simp [h1, h2, hiff]

theorem workerStep_writer_eq (s : MemcacheFileDataStore) (m : Mutation)
    (rest : List Mutation) (hw : s.writer = m :: rest) :
    (workerStep s).writer = rest := by
  unfold workerStep
  rw [hw]
  cases hop : m.op <;> simp [hop]

theorem processQueue_nil (s : MemcacheFileDataStore) (h : s.writer = []) :
    processQueue s = s := by
  unfold processQueue
  split
  · rfl
  · rename_i m rest hw
    rw [h] at hw
    simp at hw

theorem processQueue_cons (s : MemcacheFileDataStore) (m : Mutation)
    (rest : List Mutation) (hw : s.writer = m :: rest) :
    processQueue s = processQueue (workerStep s) := by
  conv_lhs => unfold processQueue
  split
  · rename_i h
    rw [hw] at h
    simp at h
  · rfl

/-- Draining a queue holding a single SET mutation: exactly the worker's
SET arm is applied. -/
theorem processQueue_single_set (s : MemcacheFileDataStore) (urn : DSPathSpec)
    (b : Bytes) (hc : Bool)
    (hw : s.writer = [⟨MutationOp.setSubjectOp, urn, b, hc⟩]) :
    processQueue s =
      { s with
        writer := []
        fs := (writeContentToFile s.fs urn b).2
        dir_cache := invalidateDirCache s.dir_cache urn.components
        completionsRun := if hc then s.completionsRun + 1 else s.completionsRun
        wgDones := s.wgDones + 1 } := by
  rw [processQueue_cons s _ [] hw]
  have hstep : workerStep s =
      { s with
        writer := []
        fs := (writeContentToFile s.fs urn b).2
        dir_cache := invalidateDirCache s.dir_cache urn.components
        completionsRun := if hc then s.completionsRun + 1 else s.completionsRun
        wgDones := s.wgDones + 1 } := by
    unfold workerStep
    rw [hw]
  rw [hstep]
  exact processQueue_nil _ rfl

/-- The observable effects of draining a single-SET queue whose write
succeeds: the payload reaches the filesystem, the queue empties, the wait
handle is released and the completion callback (if attached) runs. -/
theorem processQueue_single_set_obs (s3 : MemcacheFileDataStore)
    (urn : DSPathSpec) (b : Bytes) (hc : Bool)
    (hw : s3.writer = [⟨MutationOp.setSubjectOp, urn, b, hc⟩])
    (hok : urn.components ∉ s3.fs.failing) :
    lookupA (processQueue s3).fs.files urn.components = some b ∧
    (processQueue s3).writer = [] ∧
    (processQueue s3).wgDones = s3.wgDones + 1 ∧
    (hc = true → (processQueue s3).completionsRun = s3.completionsRun + 1) := by
  rw [processQueue_single_set s3 urn b hc hw]
  refine ⟨?_, rfl, rfl, ?_⟩
  · simp [writeContentToFile, hok, lookupA_setA_self]
  · intro h
    simp [h]

/-! Claim theorems and witnesses. -/

/-- Claim C1 (counterexample): a `SetSubject` call that encodes
successfully enqueues nothing on the writer channel and writes the
filesystem backend synchronously, contradicting the claim that both SET
write paths enqueue a SET mutation and leave the filesystem to the
writers. -/
theorem C1_counterexample :
    encodeMessage uAB msgOk = Except.ok [1, 2] ∧
    (SetSubject defaultCfg emptyStore uAB msgOk).2.writer = [] ∧
    lookupA (SetSubject defaultCfg emptyStore uAB msgOk).2.fs.files
      uAB.components = some [1, 2] := by
  refine ⟨rfl, rfl, ?_⟩
  simp [SetSubject, encodeMessage, uAB, msgOk, defaultCfg, emptyStore, emptyFS,
    cacheSetData, writeContentToFile, lookupA_setA_self]

/-- Claim C1 (amended): for every successfully-encoding write with the
store live, `SetSubjectWithCompletion` updates the data cache
synchronously and enqueues a SET mutation carrying the serialized payload
without touching the filesystem (write-behind buffer non-negative), while
`SetSubject` updates the data cache synchronously and writes the
filesystem backend synchronously, enqueuing nothing. -/
theorem C1_write_paths (cfg : DatastoreConfig) (s : MemcacheFileDataStore)
    (urn : DSPathSpec) (message : ProtoMessage) (hc : Bool) (b : Bytes)
    (henc : encodeMessage urn message = Except.ok b)
    (hctx : s.ctxDone = false)
    (hbuf : 0 ≤ cfg.MemcacheWriteMutationBuffer) :
    (SetSubjectWithCompletion cfg s urn message hc).2.writer =
      s.writer ++ [⟨MutationOp.setSubjectOp, urn, b, hc⟩] ∧
    lookupA (SetSubjectWithCompletion cfg s urn message hc).2.data_cache
      urn.components = some b ∧
    (SetSubjectWithCompletion cfg s urn message hc).2.fs = s.fs ∧
    (SetSubject cfg s urn message).2.writer = s.writer ∧
    lookupA (SetSubject cfg s urn message).2.data_cache urn.components = some b ∧
    (urn.components ∉ s.fs.failing →
      lookupA (SetSubject cfg s urn message).2.fs.files urn.components = some b) := by
  have hbuf2 : ¬ cfg.MemcacheWriteMutationBuffer < 0 := not_lt.mpr hbuf
  refine ⟨?_, ?_, ?_, ?_, ?_, ?_⟩
  · simp [SetSubjectWithCompletion, henc, hctx, hbuf2, cacheSetSubject]
  · simp [SetSubjectWithCompletion, henc, hctx, hbuf2, cacheSetSubject,
      cacheSetData, lookupA_setA_self]
  · simp [SetSubjectWithCompletion, henc, hctx, hbuf2, cacheSetSubject]
  · simp [SetSubject, henc, cacheSetData]
  · simp [SetSubject, henc, cacheSetData, lookupA_setA_self]
  · intro hnf
    simp [SetSubject, henc, cacheSetData, writeContentToFile, hnf, lookupA_setA_self]

/-- Claim C1 (witness): the amended statement at a concrete live store and
encodable message. -/
theorem C1_witness :
    (SetSubjectWithCompletion defaultCfg emptyStore uAB msgOk true).2.writer =
      emptyStore.writer ++ [⟨MutationOp.setSubjectOp, uAB, [1, 2], true⟩] ∧
    lookupA (SetSubjectWithCompletion defaultCfg emptyStore uAB msgOk true).2.data_cache
      uAB.components = some [1, 2] ∧
    (SetSubjectWithCompletion defaultCfg emptyStore uAB msgOk true).2.fs = emptyStore.fs ∧
    (SetSubject defaultCfg emptyStore uAB msgOk).2.writer = emptyStore.writer ∧
    lookupA (SetSubject defaultCfg emptyStore uAB msgOk).2.data_cache
      uAB.components = some [1, 2] ∧
    (uAB.components ∉ emptyStore.fs.failing →
      lookupA (SetSubject defaultCfg emptyStore uAB msgOk).2.fs.files
        uAB.components = some [1, 2]) :=
  C1_write_paths defaultCfg emptyStore uAB msgOk true [1, 2] rfl rfl (by decide)

/-- Claim C2: for a path absent from the data cache, `GetSubject` and
`GetBuffer` fall back to the filesystem read; on success they store the
read bytes into the data cache via `SetData`, increment the data-miss
counter and return the read value; a path absent from the filesystem is
surfaced as a not-found error. -/
theorem C2_read_fallback (s : MemcacheFileDataStore) (urn : DSPathSpec)
    (hmiss : lookupA s.data_cache urn.components = none) :
    (∀ c, lookupA s.fs.files urn.components = some c →
      (GetSubject s urn).1 = Except.ok c ∧
      (GetSubject s urn).2.dataMisses = s.dataMisses + 1 ∧
      lookupA (GetSubject s urn).2.data_cache urn.components = some c ∧
      (GetBuffer s urn).1 = Except.ok c ∧
      (GetBuffer s urn).2.dataMisses = s.dataMisses + 1 ∧
      lookupA (GetBuffer s urn).2.data_cache urn.components = some c) ∧
    (lookupA s.fs.files urn.components = none →
      (GetSubject s urn).1 = Except.error DSErr.notFound ∧
      (GetSubject s urn).2 = s ∧
      (GetBuffer s urn).1 = Except.error DSErr.notFound ∧
      (GetBuffer s urn).2 = s) := by
  constructor
  · intro c hcontent
    refine ⟨?_, ?_, ?_, ?_, ?_, ?_⟩ <;>
      simp [GetSubject, GetBuffer, cacheGetSubject, cacheGetBuffer, hmiss,
        readContentFromFile, hcontent, cacheSetData, lookupA_setA_self]
  · intro hnone
    refine ⟨?_, ?_, ?_, ?_⟩ <;>
      simp [GetSubject, GetBuffer, cacheGetSubject, cacheGetBuffer, hmiss,
        readContentFromFile, hnone]

/-- Claim C2 (witness): the fallback at a concrete cold-cache store whose
filesystem holds bytes for the path. -/
theorem C2_witness :
    (GetSubject fsStore uAB).1 = Except.ok [7] ∧
    (GetSubject fsStore uAB).2.dataMisses = fsStore.dataMisses + 1 ∧
    lookupA (GetSubject fsStore uAB).2.data_cache uAB.components = some [7] ∧
    (GetBuffer fsStore uAB).1 = Except.ok [7] ∧
    (GetBuffer fsStore uAB).2.dataMisses = fsStore.dataMisses + 1 ∧
    lookupA (GetBuffer fsStore uAB).2.data_cache uAB.components = some [7] :=
  (C2_read_fallback fsStore uAB (by decide)).1 [7] (by decide)

/-- Claim C3: with the negative mutation-buffer sentinel and the store
live, `SetSubjectWithCompletion` and `SetBuffer` return only after the
enqueued SET mutation has been processed by a writer: at return the
filesystem reflects the write, the queue is drained, the per-call wait
handle has been released and the completion callback (if attached) has
run. -/
theorem C3_write_through_wait (cfg : DatastoreConfig) (s : MemcacheFileDataStore)
    (urn : DSPathSpec) (message : ProtoMessage) (hc : Bool) (b buf : Bytes)
    (henc : encodeMessage urn message = Except.ok b)
    (hctx : s.ctxDone = false)
    (hbuf : cfg.MemcacheWriteMutationBuffer < 0)
    (hq : s.writer = [])
    (hok : urn.components ∉ s.fs.failing) :
    lookupA (SetSubjectWithCompletion cfg s urn message hc).2.fs.files
      urn.components = some b ∧
    (SetSubjectWithCompletion cfg s urn message hc).2.writer = [] ∧
    (SetSubjectWithCompletion cfg s urn message hc).2.wgDones = s.wgDones + 1 ∧
    (hc = true →
      (SetSubjectWithCompletion cfg s urn message hc).2.completionsRun =
        s.completionsRun + 1) ∧
    lookupA (SetBuffer cfg s urn buf hc).2.fs.files urn.components = some buf ∧
    (SetBuffer cfg s urn buf hc).2.writer = [] ∧
    (SetBuffer cfg s urn buf hc).2.wgDones = s.wgDones + 1 := by
  have h1 : (SetSubjectWithCompletion cfg s urn message hc).2 =
      processQueue
        { s with
          data_cache := (cacheSetSubject s.data_cache s.dir_cache urn message).2.1
          dir_cache := (cacheSetSubject s.data_cache s.dir_cache urn message).2.2
          writer := [⟨MutationOp.setSubjectOp, urn, b, hc⟩] } := by
    simp [SetSubjectWithCompletion, henc, hctx, hbuf, hq]
  have h2 : (SetBuffer cfg s urn buf hc).2 =
      processQueue
        { s with
          data_cache := (cacheSetData s.data_cache s.dir_cache urn buf).2.1
          dir_cache := (cacheSetData s.data_cache s.dir_cache urn buf).2.2
          writer := [⟨MutationOp.setSubjectOp, urn, buf, hc⟩] } := by
    simp [SetBuffer, cacheSetData, hctx, hbuf, hq]
  obtain ⟨o1, o2, o3, o4⟩ := processQueue_single_set_obs
    { s with
      data_cache := (cacheSetSubject s.data_cache s.dir_cache urn message).2.1
      dir_cache := (cacheSetSubject s.data_cache s.dir_cache urn message).2.2
      writer := [⟨MutationOp.setSubjectOp, urn, b, hc⟩] } urn b hc rfl hok
  obtain ⟨p1, p2, p3, p4⟩ := processQueue_single_set_obs
    { s with
      data_cache := (cacheSetData s.data_cache s.dir_cache urn buf).2.1
      dir_cache := (cacheSetData s.data_cache s.dir_cache urn buf).2.2
      writer := [⟨MutationOp.setSubjectOp, urn, buf, hc⟩] } urn buf hc rfl hok
  rw [h1, h2]
  exact ⟨o1, o2, o3, o4, p1, p2, p3⟩

/-- Claim C3 (witness): write-through at a concrete empty live store. -/
theorem C3_witness :
    lookupA (SetSubjectWithCompletion negBufCfg emptyStore uAB msgOk true).2.fs.files
      uAB.components = some [1, 2] ∧
    (SetSubjectWithCompletion negBufCfg emptyStore uAB msgOk true).2.writer = [] ∧
    (SetSubjectWithCompletion negBufCfg emptyStore uAB msgOk true).2.wgDones =
      emptyStore.wgDones + 1 ∧
    (true = true →
      (SetSubjectWithCompletion negBufCfg emptyStore uAB msgOk true).2.completionsRun =
        emptyStore.completionsRun + 1) ∧
    lookupA (SetBuffer negBufCfg emptyStore uAB [9] true).2.fs.files
      uAB.components = some [9] ∧
    (SetBuffer negBufCfg emptyStore uAB [9] true).2.writer = [] ∧
    (SetBuffer negBufCfg emptyStore uAB [9] true).2.wgDones = emptyStore.wgDones + 1 :=
  C3_write_through_wait negBufCfg emptyStore uAB msgOk true [1, 2] [9]
    rfl rfl (by decide) rfl (by decide)

/-- Claim C4 (code evaluated at the failing input): with the cancellation
token fired before the channel send and the negative mutation-buffer
sentinel, `DeleteSubject` blocks forever in `wg.Wait()` instead of
returning — the cancellation arm is `break`, which only leaves the select,
and the never-enqueued mutation's wait handle is never released — whereas
with the default buffer it returns, and `SetSubjectWithCompletion` in the
same situation returns nil without waiting. -/
theorem C4_delete_shutdown_blocks :
    (DeleteSubject negBufCfg cancelledStore uAB).isBlocked = true ∧
    (DeleteSubject defaultCfg cancelledStore uAB).isBlocked = false ∧
    (SetSubjectWithCompletion negBufCfg cancelledStore uAB msgOk true).1 = none ∧
    (SetSubjectWithCompletion negBufCfg cancelledStore uAB msgOk true).2.writer = [] := by
  refine ⟨rfl, rfl, rfl, rfl⟩

/-- Claim C5: a writer worker's directory-cache invalidation clears, for a
SET mutation, exactly the nonempty-prefix ancestors of the mutation's path
that hold a non-full entry, and for a DELETE mutation exactly those of the
path's parent; every full entry (and every other key) keeps its binding. -/
theorem C5_worker_invalidation (s : MemcacheFileDataStore) (m : Mutation)
    (rest : List Mutation) (k : Key) (hw : s.writer = m :: rest) :
    (m.op = MutationOp.setSubjectOp →
      lookupA (workerStep s).dir_cache k =
        if k ≠ [] ∧ k <+: m.urn.components ∧ nonFullAt s.dir_cache k = true
        then none else lookupA s.dir_cache k) ∧
    (m.op = MutationOp.delSubjectOp →
      lookupA (workerStep s).dir_cache k =
        if k ≠ [] ∧ k <+: m.urn.components.dropLast ∧ nonFullAt s.dir_cache k = true
        then none else lookupA s.dir_cache k) := by
  constructor
  · intro hop
    unfold workerStep
    rw [hw]
    simp only [hop]
    exact invalidateDirCache_lookup s.dir_cache m.urn.components k
  · intro hop
    unfold workerStep
    rw [hw]
    simp only [hop, DSPathSpec.dir]
    exact invalidateDirCache_lookup s.dir_cache m.urn.components.dropLast k

/-- Claim C5 (witness): the invalidation characterization at a concrete
store with a pending SET mutation and a non-full ancestor entry. -/
theorem C5_witness :
    ((⟨MutationOp.setSubjectOp, uAB, [9], false⟩ : Mutation).op = MutationOp.setSubjectOp →
      lookupA (workerStep pendingSetStore).dir_cache ["a"] =
        if (["a"] : Key) ≠ [] ∧ (["a"] : Key) <+: uAB.components ∧
            nonFullAt pendingSetStore.dir_cache ["a"] = true
        then none else lookupA pendingSetStore.dir_cache ["a"]) ∧
    ((⟨MutationOp.setSubjectOp, uAB, [9], false⟩ : Mutation).op = MutationOp.delSubjectOp →
      lookupA (workerStep pendingSetStore).dir_cache ["a"] =
        if (["a"] : Key) ≠ [] ∧ (["a"] : Key) <+: uAB.components.dropLast ∧
            nonFullAt pendingSetStore.dir_cache ["a"] = true
        then none else lookupA pendingSetStore.dir_cache ["a"]) :=
  C5_worker_invalidation pendingSetStore ⟨MutationOp.setSubjectOp, uAB, [9], false⟩ [] ["a"] rfl

/-- Claim C6 (counterexample): when the queried parent key holds a cached
entry that is not full, the resolver returns that entry for in-place
update and leaves the cache untouched, contradicting the claim that a
present-but-not-full parent yields removal and the no-metadata result. -/
theorem C6_counterexample :
    nonFullAt dcNonFull ["a"] = true ∧
    (get_file_dir_metadata dcNonFull ["a"]).1 = some ⟨[], false⟩ ∧
    (get_file_dir_metadata dcNonFull ["a"]).2 = dcNonFull := by
  refine ⟨rfl, rfl, rfl⟩

/-- Claim C6 (amended): the resolver returns the cached metadata entry for
in-place update whenever the queried parent key is present, full or not;
only when the parent is absent does it remove each non-full entry among
the parent's proper ancestors and return the no-metadata result so the
core skips the parent update. -/
theorem C6_resolver (dc : DirCache) (urn : Key) (k : Key) :
    (∀ md, lookupA dc urn = some md → get_file_dir_metadata dc urn = (some md, dc)) ∧
    (lookupA dc urn = none →
      (get_file_dir_metadata dc urn).1 = none ∧
      lookupA (get_file_dir_metadata dc urn).2 k =
        if k ≠ [] ∧ k <+: urn.dropLast ∧ nonFullAt dc k = true
        then none else lookupA dc k) := by
  constructor
  · intro md h
    simp [get_file_dir_metadata, h]
  · intro h
    refine ⟨by simp [get_file_dir_metadata, h], ?_⟩
    simp only [get_file_dir_metadata, h]
    exact invalidateDirCache_lookup dc urn.dropLast k

/-- Claim C6 (witness): the miss branch of the amended statement at a
concrete cache holding a non-full proper ancestor. -/
theorem C6_witness :
    (get_file_dir_metadata dcNonFull ["a", "b"]).1 = none ∧
    lookupA (get_file_dir_metadata dcNonFull ["a", "b"]).2 ["a"] =
      if (["a"] : Key) ≠ [] ∧ (["a"] : Key) <+: (["a", "b"] : Key).dropLast ∧
          nonFullAt dcNonFull ["a"] = true
      then none else lookupA dcNonFull ["a"] :=
  (C6_resolver dcNonFull ["a", "b"] ["a"]).2 (by decide)

/-- Claim C7: a message that fails encoding for its path's tag makes
`SetSubjectWithCompletion` and `SetSubject` return the encoding error
immediately with the whole store state — in particular the data cache and
the writer channel — unmodified. -/
theorem C7_encode_failure (cfg : DatastoreConfig) (s : MemcacheFileDataStore)
    (urn : DSPathSpec) (message : ProtoMessage) (hc : Bool) (e : String)
    (h : encodeMessage urn message = Except.error e) :
    SetSubjectWithCompletion cfg s urn message hc = (some (DSErr.encodeErr e), s) ∧
    SetSubject cfg s urn message = (some (DSErr.encodeErr e), s) := by
  constructor <;> simp [SetSubjectWithCompletion, SetSubject, h]

/-- Claim C7 (witness): the encode-failure path at a concrete store and a
message whose marshalling fails. -/
theorem C7_witness :
    SetSubjectWithCompletion defaultCfg emptyStore uAB msgBad true =
      (some (DSErr.encodeErr "marshal error"), emptyStore) ∧
    SetSubject defaultCfg emptyStore uAB msgBad =
      (some (DSErr.encodeErr "marshal error"), emptyStore) :=
  C7_encode_failure defaultCfg emptyStore uAB msgBad true "marshal error" rfl

/-- Claim C8: when the cancellation token has fired before the channel
accepts the SET mutation, `SetSubjectWithCompletion` returns a nil error
with nothing enqueued and the filesystem untouched, the in-memory cache
update having already been applied. -/
theorem C8_shutdown_returns_ok (cfg : DatastoreConfig) (s : MemcacheFileDataStore)
    (urn : DSPathSpec) (message : ProtoMessage) (hc : Bool) (b : Bytes)
    (henc : encodeMessage urn message = Except.ok b)
    (hctx : s.ctxDone = true) :
    (SetSubjectWithCompletion cfg s urn message hc).1 = none ∧
    (SetSubjectWithCompletion cfg s urn message hc).2.writer = s.writer ∧
    (SetSubjectWithCompletion cfg s urn message hc).2.fs = s.fs ∧
    lookupA (SetSubjectWithCompletion cfg s urn message hc).2.data_cache
      urn.components = some b := by
  refine ⟨?_, ?_, ?_, ?_⟩ <;>
    simp [SetSubjectWithCompletion, henc, hctx, cacheSetSubject, cacheSetData,
      lookupA_setA_self]

/-- Claim C8 (witness): the shutdown path at a concrete cancelled store. -/
theorem C8_witness :
    (SetSubjectWithCompletion defaultCfg cancelledStore uAB msgOk true).1 = none ∧
    (SetSubjectWithCompletion defaultCfg cancelledStore uAB msgOk true).2.writer =
      cancelledStore.writer ∧
    (SetSubjectWithCompletion defaultCfg cancelledStore uAB msgOk true).2.fs =
      cancelledStore.fs ∧
    lookupA (SetSubjectWithCompletion defaultCfg cancelledStore uAB msgOk true).2.data_cache
      uAB.components = some [1, 2] :=
  C8_shutdown_returns_ok defaultCfg cancelledStore uAB msgOk true [1, 2] rfl rfl

/-- Claim C9: a writer worker processing a SET mutation whose filesystem
write fails still considers the mutation done: the mutation leaves the
queue and is not requeued, the wait handle is released, and the completion
callback (if attached) runs, while the filesystem is unchanged. -/
theorem C9_completion_despite_write_failure (s : MemcacheFileDataStore)
    (m : Mutation) (rest : List Mutation)
    (hw : s.writer = m :: rest)
    (hop : m.op = MutationOp.setSubjectOp)
    (hfail : m.urn.components ∈ s.fs.failing) :
    (workerStep s).writer = rest ∧
    (workerStep s).fs = s.fs ∧
    (workerStep s).wgDones = s.wgDones + 1 ∧
    (m.hasCompletion = true →
      (workerStep s).completionsRun = s.completionsRun + 1) := by
  have hstep : workerStep s =
      { s with
        writer := rest
        fs := (writeContentToFile s.fs m.urn m.data).2
        dir_cache := invalidateDirCache s.dir_cache m.urn.components
        completionsRun :=
          if m.hasCompletion then s.completionsRun + 1 else s.completionsRun
        wgDones := s.wgDones + 1 } := by
    unfold workerStep
    rw [hw]
    dsimp only
    rw [hop]
  rw [hstep]
  refine ⟨rfl, ?_, rfl, ?_⟩
  · simp [writeContentToFile, hfail]
  · intro hcomp
    simp [hcomp]

/-- Claim C9 (witness): a concrete pending SET mutation whose write
fails. -/
theorem C9_witness :
    (workerStep failWriteStore).writer = [] ∧
    (workerStep failWriteStore).fs = failWriteStore.fs ∧
    (workerStep failWriteStore).wgDones = failWriteStore.wgDones + 1 ∧
    ((⟨MutationOp.setSubjectOp, uAB, [9], true⟩ : Mutation).hasCompletion = true →
      (workerStep failWriteStore).completionsRun = failWriteStore.completionsRun + 1) :=
  C9_completion_despite_write_failure failWriteStore
    ⟨MutationOp.setSubjectOp, uAB, [9], true⟩ [] rfl rfl (by decide)

/-- Claim C10: with the datastore configuration present but all cache
sizes unset, the constructor builds the store with the documented default
capacities: 10000 data-cache entries, 65536 bytes per data item, 1000
directory-cache entries. -/
theorem C10_default_caps (d : DatastoreConfig)
    (h1 : d.MemcacheDatastoreMaxSize ≤ 0)
    (h2 : d.MemcacheDatastoreMaxItemSize ≤ 0)
    (h3 : d.MemcacheDatastoreMaxDirSize ≤ 0) :
    NewMemcacheFileDataStore ⟨some d⟩ =
      some ⟨10000, 65536, 1000⟩ := by
  have g1 : ¬ d.MemcacheDatastoreMaxSize > 0 := by omega
  have g2 : ¬ d.MemcacheDatastoreMaxItemSize > 0 := by omega
  have g3 : ¬ d.MemcacheDatastoreMaxDirSize > 0 := by omega
  simp [NewMemcacheFileDataStore, NewDataLRUCache, NewDirectoryLRUCache, g1, g2, g3]

/-- Claim C10 (witness): the defaults at a configuration leaving every
cache size at zero. -/
theorem C10_witness :
    NewMemcacheFileDataStore ⟨some defaultCfg⟩ = some ⟨10000, 65536, 1000⟩ :=
  C10_default_caps defaultCfg (by decide) (by decide) (by decide)

end MemcacheFile
